import Mathlib

/-!
Shallow embedding of the scheduled-content lifecycle engine of the
`instagram-ai-marketing` repository.

Tables are modelled as Lean lists of records; ISO-8601 timestamp strings
(compared lexicographically by the code) are modelled as `Nat` minutes, with
`t / 1440` giving the calendar day (`DATE(...)` in the SQL).  The external
posting API (`requests.post` calls) is modelled as oracle functions inside
`PosterConfig`; the AI content generator is modelled as oracle functions in
`Gen` (the code's `generate_content_with_ai` never reports failure: every
fallback path returns `success = True`).
-/

/-- Row of the `users` table (database/__init__.py). -/
structure User where
  id : Nat
  is_active : Bool
deriving DecidableEq, Repr

/-- Row of the `businesses` table (database/__init__.py). -/
structure Business where
  id : Nat
  user_id : Nat
  business_name : String
  industry : String
deriving DecidableEq, Repr

/-- Row of the `business_settings` table (complete_automation_system.py,
`init_business_database`).  `preferred_times` holds minutes-of-day. -/
structure BusinessSettings where
  business_id : Nat
  auto_post_enabled : Bool
  post_frequency : Nat
  preferred_times : List Nat
deriving DecidableEq, Repr

/-- Row of the `content` table (database/__init__.py). -/
structure Content where
  id : Nat
  business_id : Nat
  caption : String
  image_url : String
  status : String
  created_at : Nat
  published_at : Option Nat
deriving DecidableEq, Repr

/-- Row of the `content_schedule` table (database/__init__.py). -/
structure ScheduleEntry where
  id : Nat
  business_id : Nat
  content_id : Nat
  scheduled_datetime : Nat
  status : String
  post_id : Option String
  error_message : Option String
  retry_count : Nat
  created_at : Nat
  completed_at : Option Nat
deriving DecidableEq, Repr

/-- Row of the `performance_tracking` table (complete_automation_system.py,
`init_business_database`); the INSERT in `execute_scheduled_posts` supplies
only the first four columns, the engagement counters take their SQL
DEFAULT 0. -/
structure PerfRecord where
  business_id : Nat
  post_id : String
  content_type : String
  posted_at : Nat
  likes_count : Nat
  comments_count : Nat
  reach : Nat
  impressions : Nat
deriving DecidableEq, Repr

/-- The persistent state: one field per table used by the lifecycle engine. -/
structure DB where
  users : List User
  businesses : List Business
  settings : List BusinessSettings
  content : List Content
  schedule : List ScheduleEntry
  performance : List PerfRecord
deriving DecidableEq, Repr

/-! ### InstagramAutoPoster (instagram_auto_poster.py) -/

/-- Environment of `InstagramAutoPoster`: the two credentials read from the
environment, oracles for the two Graph-API calls, and the wall-clock epoch
used by the test-mode identifiers (`int(time.time())`). -/
structure PosterConfig where
  access_token : Option String
  business_account_id : Option String
  stage_result : String → String → Option String
  commit_result : String → Option String
  epoch : Nat

/-- The guard `if not self.access_token or not self.business_account_id`
shared by `create_media_container` and `publish_media`. -/
def testMode (cfg : PosterConfig) : Bool :=
  cfg.access_token.isNone || cfg.business_account_id.isNone

/-- `_create_test_post` (instagram_auto_poster.py:257): returns a synthetic
container id built from the current epoch. -/
def createTestPost (cfg : PosterConfig) : String :=
  "test_container_" ++ toString cfg.epoch

/-- `create_media_container` (instagram_auto_poster.py:200): without
credentials it falls back to `_create_test_post`; otherwise the Graph-API
call either yields a container id or fails. -/
def create_media_container (cfg : PosterConfig) (image_url caption : String) :
    Option String :=
  if testMode cfg then some (createTestPost cfg)
  else cfg.stage_result image_url caption

/-- `publish_media` (instagram_auto_poster.py:229): without credentials it
returns the synthetic `test_post_…` id; otherwise the Graph-API call either
yields a platform post id or fails. -/
def publish_media (cfg : PosterConfig) (creation_id : String) : Option String :=
  if testMode cfg then some ("test_post_" ++ toString cfg.epoch)
  else cfg.commit_result creation_id

/-- `post_to_instagram` (instagram_auto_poster.py:265) in the configuration
used by both executors (custom caption and image are always supplied):
stage, then commit; `none` models the `False` return on either failure. -/
def post_to_instagram (cfg : PosterConfig) (caption image_url : String) :
    Option String :=
  match create_media_container cfg image_url caption with
  | none => none
  | some creation_id => publish_media cfg creation_id

/-! ### ScheduleExecutor: `execute_scheduled_posts`
(complete_automation_system.py:343) and `process_scheduled_posts`
(scheduler.py:29) -/

/-- The `WHERE cs.scheduled_datetime <= ? AND cs.status = 'pending'` filter
shared by both due queries. -/
def isDuePending (now : Nat) (e : ScheduleEntry) : Bool :=
  decide (e.scheduled_datetime ≤ now) && (e.status == "pending")

/-- One row of the due query after the JOIN with `content`: the snapshot of
schedule and content columns fetched before the processing loop. -/
structure DueRow where
  schedule_id : Nat
  business_id : Nat
  content_id : Nat
  scheduled_datetime : Nat
  caption : String
  image_url : String
deriving DecidableEq, Repr

/-- `JOIN content c ON cs.content_id = c.id` for one schedule entry; a
missing content row drops the entry from the result set. -/
def joinContent (db : DB) (e : ScheduleEntry) : Option DueRow :=
  match db.content.find? (fun c => c.id == e.content_id) with
  | some c =>
      some ⟨e.id, e.business_id, e.content_id, e.scheduled_datetime,
            c.caption, c.image_url⟩
  | none => none

/-- `JOIN content … JOIN businesses b ON cs.business_id = b.id` of
`execute_scheduled_posts`: additionally requires the business row. -/
def joinContentBusiness (db : DB) (e : ScheduleEntry) : Option DueRow :=
  match db.businesses.find? (fun b => b.id == e.business_id) with
  | some _ => joinContent db e
  | none => none

/-- Due query of `execute_scheduled_posts`
(complete_automation_system.py:351-359): filter, join with content and
businesses, `ORDER BY cs.scheduled_datetime ASC`. -/
def dueRows (db : DB) (now : Nat) : List DueRow :=
  ((db.schedule.filter (isDuePending now)).filterMap
      (joinContentBusiness db)).mergeSort
    (fun a b => decide (a.scheduled_datetime ≤ b.scheduled_datetime))

/-- Due query of `process_scheduled_posts` (scheduler.py:37-42): filter and
join with content only; the statement has no ORDER BY, so rows come back in
table storage order. -/
def dueRowsNoOrder (db : DB) (now : Nat) : List DueRow :=
  (db.schedule.filter (isDuePending now)).filterMap (joinContent db)

/-- Publish attempt for one due row: both executors call `post_to_instagram`
with the caption and image url fetched by the due query. -/
def publishOutcome (cfg : PosterConfig) (r : DueRow) : Option String :=
  post_to_instagram cfg r.caption r.image_url

/-- Success UPDATE on `content_schedule`
(complete_automation_system.py:381-385). -/
def markCompleted (now : Nat) (pid : String) (sid : Nat) (s : ScheduleEntry) :
    ScheduleEntry :=
  if s.id = sid then
    { s with status := "completed", post_id := some pid,
             completed_at := some now }
  else s

/-- Failure UPDATE on `content_schedule`
(complete_automation_system.py:403-408 and scheduler.py:100-105). -/
def markFailed (msg : String) (sid : Nat) (s : ScheduleEntry) : ScheduleEntry :=
  if s.id = sid then
    { s with status := "failed", retry_count := s.retry_count + 1,
             error_message := some msg }
  else s

/-- Success UPDATE on `content` (complete_automation_system.py:387-391). -/
def markPublished (now : Nat) (cid : Nat) (c : Content) : Content :=
  if c.id = cid then
    { c with status := "published", published_at := some now }
  else c

/-- The `performance_tracking` INSERT
(complete_automation_system.py:394-398): engagement counters default to 0. -/
def mkPerf (now bid : Nat) (pid : String) : PerfRecord :=
  ⟨bid, pid, "post", now, 0, 0, 0, 0⟩

/-- Processing of one due row by `execute_scheduled_posts`: on a truthy post
id, the three writes (schedule completed, content published, performance
insert); otherwise the failed UPDATE with retry_count + 1. -/
def applyRow (cfg : PosterConfig) (now : Nat) (db : DB) (r : DueRow) : DB :=
  match publishOutcome cfg r with
  | some pid =>
      { db with
        schedule := db.schedule.map (markCompleted now pid r.schedule_id),
        content := db.content.map (markPublished now r.content_id),
        performance := db.performance ++ [mkPerf now r.business_id pid] }
  | none =>
      { db with
        schedule :=
          db.schedule.map (markFailed "Instagram posting failed" r.schedule_id) }

/-- `execute_scheduled_posts` (complete_automation_system.py:343-429): fetch
the ordered due rows once, then process each row in order; the single final
`conn.commit()` makes the whole sweep one transaction. -/
def execute_scheduled_posts (cfg : PosterConfig) (now : Nat) (db : DB) : DB :=
  (dueRows db now).foldl (applyRow cfg now) db

/-- Processing of one due row by `process_scheduled_posts` (scheduler.py):
it first re-reads the business row; when that row is missing nothing is
written at all; on success only the schedule and content UPDATEs run — this
executor creates no performance record. -/
def applyRowScheduler (cfg : PosterConfig) (now : Nat) (db : DB) (r : DueRow) :
    DB :=
  match db.businesses.find? (fun b => b.id == r.business_id) with
  | none => db
  | some _ =>
      match publishOutcome cfg r with
      | some pid =>
          { db with
            schedule := db.schedule.map (markCompleted now pid r.schedule_id),
            content := db.content.map (markPublished now r.content_id) }
      | none =>
          { db with
            schedule :=
              db.schedule.map
                (markFailed "Instagram posting failed" r.schedule_id) }

/-- `process_scheduled_posts` (scheduler.py:29-129): unordered due rows,
per-row processing, one final commit. -/
def process_scheduled_posts (cfg : PosterConfig) (now : Nat) (db : DB) : DB :=
  (dueRowsNoOrder db now).foldl (applyRowScheduler cfg now) db

/-! ### AutomationEngine: `schedule_content_post`, `generate_automated_content`,
`run_daily_automation` (complete_automation_system.py) and
`generate_daily_content` (scheduler.py) -/

/-- Minutes in one calendar day; `dayOf t` models `DATE(created_at)`. -/
def minutesPerDay : Nat := 1440

/-- Calendar day of a timestamp. -/
def dayOf (t : Nat) : Nat := t / minutesPerDay

/-- Default publish time-of-day: 09:00 the next day
(complete_automation_system.py:316-321). -/
def defaultTimeOfDay : Nat := 9 * 60

/-- Target-time computation of `schedule_content_post`
(complete_automation_system.py:297-321): when the business has a non-empty
`preferred_times` list, pick one entry pseudo-randomly (`random.choice`,
modelled by the supplied index `ri`) and place it on the next calendar day;
otherwise 09:00 the next day. -/
def computeScheduledTime (db : DB) (bid now ri : Nat) : Nat :=
  let tomorrow := (dayOf now + 1) * minutesPerDay
  match db.settings.find? (fun s => s.business_id == bid) with
  | some s =>
      if s.preferred_times.isEmpty then tomorrow + defaultTimeOfDay
      else tomorrow + s.preferred_times.getD (ri % s.preferred_times.length)
             defaultTimeOfDay
  | none => tomorrow + defaultTimeOfDay

/-- `schedule_content_post` (complete_automation_system.py:290-341): compute
the target timestamp when none is supplied, then INSERT one
`content_schedule` row with status `pending`, retry_count 0 and no post id.
The function performs no other write: in particular it does not read or
update the `content` table, and it performs no check for an existing
pending entry of the same content item. -/
def schedule_content_post (db : DB) (bid cid : Nat)
    (scheduled_time : Option Nat) (now ri newId : Nat) : DB :=
  let t := scheduled_time.getD (computeScheduledTime db bid now ri)
  { db with
    schedule := db.schedule ++
      [⟨newId, bid, cid, t, "pending", none, none, 0, now, none⟩] }

/-- Oracles for the AI collaborator (`generate_content_with_ai` and
`generate_image_with_dalle`); the code's wrapper catches every error and
falls back to canned content with `success = True`, so generation never
fails. -/
structure Gen where
  caption : Business → String
  image : String → String

/-- Next AUTOINCREMENT id for the `content` table. -/
def freshContentId (db : DB) : Nat :=
  db.content.foldl (fun m c => max m c.id) 0 + 1

/-- Next AUTOINCREMENT id for the `content_schedule` table. -/
def freshScheduleId (db : DB) : Nat :=
  db.schedule.foldl (fun m e => max m e.id) 0 + 1

/-- `generate_automated_content` (complete_automation_system.py:210-288):
look the business up (LEFT JOIN with `business_settings`); when the business
row is missing, or `auto_post_enabled` is falsy (including the NULL produced
by a missing settings row), return `none`; otherwise INSERT one `content`
row with status `draft` created now and return the new content id. -/
def generate_automated_content (g : Gen) (db : DB) (bid now : Nat) :
    Option (DB × Nat) :=
  match db.businesses.find? (fun b => b.id == bid) with
  | none => none
  | some b =>
      let enabled :=
        ((db.settings.find? (fun s => s.business_id == bid)).map
          (fun s => s.auto_post_enabled)).getD false
      if enabled then
        let cid := freshContentId db
        some ({ db with
                content := db.content ++
                  [⟨cid, bid, g.caption b, g.image b.industry, "draft", now,
                    none⟩] }, cid)
      else none

/-- `post_frequency` lookup of `run_daily_automation`
(complete_automation_system.py:585-590): first settings row, default 1. -/
def freqOf (db : DB) (bid : Nat) : Nat :=
  ((db.settings.find? (fun s => s.business_id == bid)).map
    (fun s => s.post_frequency)).getD 1

/-- `SELECT COUNT(*) FROM content WHERE business_id = ? AND
DATE(created_at) = ?`. -/
def todayCount (db : DB) (bid today : Nat) : Nat :=
  (db.content.filter
    (fun c => c.business_id == bid && dayOf c.created_at == today)).length

/-- The business query of `run_daily_automation`
(complete_automation_system.py:563-569): businesses joined with an enabled
settings row and an active owning user. -/
def activeRows (db : DB) : List Business :=
  db.businesses.filter (fun b =>
    db.settings.any (fun s => s.business_id == b.id && s.auto_post_enabled) &&
    db.users.any (fun u => u.id == b.user_id && u.is_active))

/-- Per-business body of `run_daily_automation`
(complete_automation_system.py:573-606): count today's content, read the
configured frequency, and when under quota generate one content item and
enqueue it; a `None` from generation leaves the state unchanged. -/
def runBusinessStep (g : Gen) (now ri : Nat) (db : DB) (b : Business) : DB :=
  if todayCount db b.id (dayOf now) < freqOf db b.id then
    match generate_automated_content g db b.id now with
    | some (db2, cid) =>
        schedule_content_post db2 b.id cid none now ri (freshScheduleId db2)
    | none => db
  else db

/-- `run_daily_automation` (complete_automation_system.py:554-616): process
every active business, then run `execute_scheduled_posts`. -/
def run_daily_automation (g : Gen) (cfg : PosterConfig) (now ri : Nat)
    (db : DB) : DB :=
  execute_scheduled_posts cfg now
    ((activeRows db).foldl (runBusinessStep g now ri) db)

/-- The business query of `generate_daily_content` (scheduler.py:138-143):
businesses with an active owning user; `business_settings` is not
consulted. -/
def activeForScheduler (db : DB) : List Business :=
  db.businesses.filter (fun b =>
    db.users.any (fun u => u.id == b.user_id && u.is_active))

/-- Per-business body of `generate_daily_content` (scheduler.py:159-201):
when fewer than 3 content items were created today — the bound is the
hardcoded literal 3, not the configured `post_frequency` — INSERT one
`draft` content row; no schedule entry is created here. -/
def genDailyStep (g : Gen) (now : Nat) (db : DB) (b : Business) : DB :=
  if todayCount db b.id (dayOf now) < 3 then
    { db with
      content := db.content ++
        [⟨freshContentId db, b.id, g.caption b, g.image b.industry, "draft",
          now, none⟩] }
  else db

/-- `generate_daily_content` (scheduler.py:131-209). -/
def generate_daily_content (g : Gen) (now : Nat) (db : DB) : DB :=
  (activeForScheduler db).foldl (genDailyStep g now) db

/-! ### Housekeeping: `cleanup_old_data` (scheduler.py:211-244) -/

/-- Retention window of `cleanup_old_data`: 30 days. -/
def retentionCutoff (now : Nat) : Nat := now - 30 * minutesPerDay

/-- The DELETE predicate of `cleanup_old_data` (scheduler.py:219-222):
`status = 'completed' AND completed_at < cutoff`; a NULL `completed_at`
never satisfies the SQL comparison. -/
def isOldCompleted (cutoff : Nat) (e : ScheduleEntry) : Bool :=
  (e.status == "completed") &&
    (match e.completed_at with
     | some t => decide (t < cutoff)
     | none => false)

/-- `cleanup_old_data` restricted to the `content_schedule` table (the
`user_sessions` DELETE is outside this data model): keep exactly the rows
the DELETE does not match. -/
def cleanup_old_data (now : Nat) (db : DB) : DB :=
  { db with
    schedule :=
      db.schedule.filter (fun e => !(isOldCompleted (retentionCutoff now) e)) }

/-! ### Helper lemmas -/

/-- Generic `foldl` invariant preservation. -/
theorem foldl_inv {α β : Type _} (f : β → α → β) (P : β → Prop) :
    ∀ (l : List α) (b : β), (∀ b' a, a ∈ l → P b' → P (f b' a)) → P b →
      P (l.foldl f b)
  | [], _, _, hb => hb
  | a :: l, b, hstep, hb =>
    foldl_inv f P l (f b a)
      (fun b' a' ha' => hstep b' a' (List.mem_cons_of_mem _ ha'))
      (hstep b a (List.mem_cons_self _ _) hb)

theorem markCompleted_ne (now : Nat) (pid : String) (sid : Nat)
    (s : ScheduleEntry) (h : s.id ≠ sid) : markCompleted now pid sid s = s := by
  simp [markCompleted, h]

theorem markFailed_ne (msg : String) (sid : Nat) (s : ScheduleEntry)
    (h : s.id ≠ sid) : markFailed msg sid s = s := by
  simp [markFailed, h]

theorem markPublished_ne (now cid : Nat) (c : Content) (h : c.id ≠ cid) :
    markPublished now cid c = c := by
  simp [markPublished, h]

theorem markPublished_id (now cid : Nat) (c : Content) :
    (markPublished now cid c).id = c.id := by
  unfold markPublished; split <;> rfl

theorem markPublished_business_id (now cid : Nat) (c : Content) :
    (markPublished now cid c).business_id = c.business_id := by
  unfold markPublished; split <;> rfl

theorem markPublished_created_at (now cid : Nat) (c : Content) :
    (markPublished now cid c).created_at = c.created_at := by
  unfold markPublished; split <;> rfl

/-- A row produced by `joinContent` copies the key columns of its schedule
entry and the caption/image of the found content row. -/
theorem joinContent_eq (db : DB) (e : ScheduleEntry) (r : DueRow)
    (h : joinContent db e = some r) :
    r.schedule_id = e.id ∧ r.business_id = e.business_id ∧
      r.content_id = e.content_id ∧ r.scheduled_datetime = e.scheduled_datetime ∧
      ∃ c, db.content.find? (fun c => c.id == e.content_id) = some c ∧
        r.caption = c.caption ∧ r.image_url = c.image_url := by
  unfold joinContent at h
  cases hfc : db.content.find? (fun c => c.id == e.content_id) with
  | none => rw [hfc] at h; cases h
  | some c =>
      rw [hfc] at h
      cases h
      exact ⟨rfl, rfl, rfl, rfl, c, rfl, rfl, rfl⟩

theorem joinContentBusiness_eq (db : DB) (e : ScheduleEntry) (r : DueRow)
    (h : joinContentBusiness db e = some r) :
    joinContent db e = some r ∧
      ∃ b, db.businesses.find? (fun b => b.id == e.business_id) = some b := by
  unfold joinContentBusiness at h
  cases hfb : db.businesses.find? (fun b => b.id == e.business_id) with
  | none => rw [hfb] at h; cases h
  | some b => rw [hfb] at h; exact ⟨h, b, rfl⟩

/-- Mapping over a `filterMap` result is a sublist of mapping over the
source, whenever the map factors through the partial function. -/
theorem map_filterMap_sublist {α β γ : Type _} (f : α → Option β) (g : β → γ)
    (h : α → γ) (H : ∀ a b, f a = some b → g b = h a) :
    ∀ l : List α, ((l.filterMap f).map g).Sublist (l.map h)
  | [] => List.Sublist.refl _
  | a :: l => by
    cases hfa : f a with
    | none =>
        rw [List.filterMap_cons_none hfa, List.map_cons]
        exact (map_filterMap_sublist f g h H l).cons _
    | some b =>
        rw [List.filterMap_cons_some hfa, List.map_cons, List.map_cons,
          H a b hfa]
        exact (map_filterMap_sublist f g h H l).cons₂ _

/-- The schedule ids of the ordered due rows are distinct whenever the
schedule table's ids are. -/
theorem dueRows_nodup_ids (db : DB) (now : Nat)
    (h : (db.schedule.map (fun e => e.id)).Nodup) :
    ((dueRows db now).map (fun r => r.schedule_id)).Nodup := by
  have hsub :
      (((db.schedule.filter (isDuePending now)).filterMap
          (joinContentBusiness db)).map (fun r => r.schedule_id)).Sublist
        (db.schedule.map (fun e => e.id)) := by
    have h1 := map_filterMap_sublist (joinContentBusiness db)
      (fun r => r.schedule_id) (fun e => e.id)
      (fun e r hr => ((joinContent_eq db e r
        (joinContentBusiness_eq db e r hr).1).1))
      (db.schedule.filter (isDuePending now))
    exact h1.trans ((List.filter_sublist db.schedule).map _)
  have hperm :
      ((dueRows db now).map (fun r => r.schedule_id)).Perm
        (((db.schedule.filter (isDuePending now)).filterMap
            (joinContentBusiness db)).map (fun r => r.schedule_id)) :=
    (List.mergeSort_perm _ _).map _
  exact hperm.nodup_iff.mpr (h.sublist hsub)

/-- Same for the unordered due rows of the scheduler. -/
theorem dueRowsNoOrder_nodup_ids (db : DB) (now : Nat)
    (h : (db.schedule.map (fun e => e.id)).Nodup) :
    ((dueRowsNoOrder db now).map (fun r => r.schedule_id)).Nodup := by
  have hsub :
      ((dueRowsNoOrder db now).map (fun r => r.schedule_id)).Sublist
        (db.schedule.map (fun e => e.id)) := by
    have h1 := map_filterMap_sublist (joinContent db)
      (fun r => r.schedule_id) (fun e => e.id)
      (fun e r hr => (joinContent_eq db e r hr).1)
      (db.schedule.filter (isDuePending now))
    exact h1.trans ((List.filter_sublist db.schedule).map _)
  exact h.sublist hsub

/-- Every row of the ordered due query stems from a due pending entry of the
schedule table. -/
theorem dueRows_source (db : DB) (now : Nat) (r : DueRow)
    (h : r ∈ dueRows db now) :
    ∃ e ∈ db.schedule, isDuePending now e = true ∧
      joinContentBusiness db e = some r := by
  have h1 : r ∈ (db.schedule.filter (isDuePending now)).filterMap
      (joinContentBusiness db) :=
    ((List.mergeSort_perm _ _).mem_iff).mp h
  obtain ⟨e, he, hj⟩ := List.mem_filterMap.mp h1
  exact ⟨e, (List.mem_filter.mp he).1, (List.mem_filter.mp he).2, hj⟩

/-- Every row of the unordered due query stems from a due pending entry. -/
theorem dueRowsNoOrder_source (db : DB) (now : Nat) (r : DueRow)
    (h : r ∈ dueRowsNoOrder db now) :
    ∃ e ∈ db.schedule, isDuePending now e = true ∧
      joinContent db e = some r := by
  obtain ⟨e, he, hj⟩ := List.mem_filterMap.mp h
  exact ⟨e, (List.mem_filter.mp he).1, (List.mem_filter.mp he).2, hj⟩

/-- A due pending entry whose joins succeed appears in the ordered due
query result. -/
theorem dueRows_mem (db : DB) (now : Nat) (e : ScheduleEntry) (r : DueRow)
    (he : e ∈ db.schedule) (hdue : isDuePending now e = true)
    (hj : joinContentBusiness db e = some r) : r ∈ dueRows db now := by
  have h1 : r ∈ (db.schedule.filter (isDuePending now)).filterMap
      (joinContentBusiness db) :=
    List.mem_filterMap.mpr ⟨e, List.mem_filter.mpr ⟨he, hdue⟩, hj⟩
  exact ((List.mergeSort_perm _ _).mem_iff).mpr h1

/-- A due pending entry whose content join succeeds appears in the
scheduler's due query result. -/
theorem dueRowsNoOrder_mem (db : DB) (now : Nat) (e : ScheduleEntry)
    (r : DueRow) (he : e ∈ db.schedule) (hdue : isDuePending now e = true)
    (hj : joinContent db e = some r) : r ∈ dueRowsNoOrder db now :=
  List.mem_filterMap.mpr ⟨e, List.mem_filter.mpr ⟨he, hdue⟩, hj⟩

theorem markCompleted_hit (now : Nat) (pid : String) (sid : Nat)
    (s : ScheduleEntry) (h : s.id = sid) :
    markCompleted now pid sid s =
      { s with status := "completed", post_id := some pid,
               completed_at := some now } := by
  simp [markCompleted, h]

theorem markFailed_hit (msg : String) (sid : Nat) (s : ScheduleEntry)
    (h : s.id = sid) :
    markFailed msg sid s =
      { s with status := "failed", retry_count := s.retry_count + 1,
               error_message := some msg } := by
  simp [markFailed, h]

theorem markPublished_hit (now cid : Nat) (c : Content) (h : c.id = cid) :
    markPublished now cid c =
      { c with status := "published", published_at := some now } := by
  simp [markPublished, h]

theorem applyRow_businesses (cfg : PosterConfig) (now : Nat) (db : DB)
    (r : DueRow) : (applyRow cfg now db r).businesses = db.businesses := by
  unfold applyRow; cases publishOutcome cfg r <;> rfl

theorem applyRow_settings (cfg : PosterConfig) (now : Nat) (db : DB)
    (r : DueRow) : (applyRow cfg now db r).settings = db.settings := by
  unfold applyRow; cases publishOutcome cfg r <;> rfl

theorem applyRow_content_cases (cfg : PosterConfig) (now : Nat) (db : DB)
    (r : DueRow) :
    (applyRow cfg now db r).content =
        db.content.map (markPublished now r.content_id) ∨
      (applyRow cfg now db r).content = db.content := by
  unfold applyRow
  cases publishOutcome cfg r
  · exact Or.inr rfl
  · exact Or.inl rfl

theorem applyRow_performance (cfg : PosterConfig) (now : Nat) (db : DB)
    (r : DueRow) :
    (applyRow cfg now db r).performance =
      db.performance ++
        ((publishOutcome cfg r).map
          (fun pid => mkPerf now r.business_id pid)).toList := by
  unfold applyRow; cases publishOutcome cfg r <;> simp

theorem execFold_businesses (cfg : PosterConfig) (now : Nat) :
    ∀ (rows : List DueRow) (db : DB),
      (rows.foldl (applyRow cfg now) db).businesses = db.businesses
  | [], _ => rfl
  | r :: rows, db => by
    rw [List.foldl_cons, execFold_businesses cfg now rows,
      applyRow_businesses]

theorem execFold_settings (cfg : PosterConfig) (now : Nat) :
    ∀ (rows : List DueRow) (db : DB),
      (rows.foldl (applyRow cfg now) db).settings = db.settings
  | [], _ => rfl
  | r :: rows, db => by
    rw [List.foldl_cons, execFold_settings cfg now rows, applyRow_settings]

/-- The whole sweep appends exactly one zero-metric performance record per
successfully published due row, in processing order, and nothing else. -/
theorem execFold_performance (cfg : PosterConfig) (now : Nat) :
    ∀ (rows : List DueRow) (db : DB),
      (rows.foldl (applyRow cfg now) db).performance =
        db.performance ++
          rows.filterMap
            (fun r => (publishOutcome cfg r).map
              (fun pid => mkPerf now r.business_id pid))
  | [], db => by simp
  | r :: rows, db => by
    rw [List.foldl_cons, execFold_performance cfg now rows,
      applyRow_performance]
    cases hpo : publishOutcome cfg r <;>
      simp [List.filterMap_cons, hpo]

/-- Schedule entries untouched by every processed row survive the sweep
verbatim. -/
theorem execFold_frame_schedule (cfg : PosterConfig) (now : Nat) :
    ∀ (rows : List DueRow) (db : DB) (s : ScheduleEntry),
      s ∈ db.schedule → (∀ r ∈ rows, s.id ≠ r.schedule_id) →
      s ∈ (rows.foldl (applyRow cfg now) db).schedule
  | [], _, _, hs, _ => hs
  | r :: rows, db, s, hs, hne => by
    rw [List.foldl_cons]
    refine execFold_frame_schedule cfg now rows _ s ?_
      (fun r' hr' => hne r' (List.mem_cons_of_mem _ hr'))
    have hid : s.id ≠ r.schedule_id := hne r (List.mem_cons_self _ _)
    unfold applyRow
    cases publishOutcome cfg r with
    | some pid =>
        have h1 := List.mem_map_of_mem (markCompleted now pid r.schedule_id) hs
        rw [markCompleted_ne now pid r.schedule_id s hid] at h1
        exact h1
    | none =>
        have h1 := List.mem_map_of_mem
          (markFailed "Instagram posting failed" r.schedule_id) hs
        rw [markFailed_ne _ r.schedule_id s hid] at h1
        exact h1

/-- Content rows untouched by every successfully published row survive the
sweep verbatim. -/
theorem execFold_frame_content (cfg : PosterConfig) (now : Nat) :
    ∀ (rows : List DueRow) (db : DB) (c : Content),
      c ∈ db.content →
      (∀ r ∈ rows, r.content_id = c.id → publishOutcome cfg r = none) →
      c ∈ (rows.foldl (applyRow cfg now) db).content
  | [], _, _, hc, _ => hc
  | r :: rows, db, c, hc, hno => by
    rw [List.foldl_cons]
    refine execFold_frame_content cfg now rows _ c ?_
      (fun r' hr' => hno r' (List.mem_cons_of_mem _ hr'))
    unfold applyRow
    cases hpo : publishOutcome cfg r with
    | some pid =>
        have hne : c.id ≠ r.content_id := by
          intro h
          rw [hno r (List.mem_cons_self _ _) h.symm] at hpo
          cases hpo
        have h1 := List.mem_map_of_mem (markPublished now r.content_id) hc
        rw [markPublished_ne now r.content_id c hne] at h1
        exact h1
    | none => exact hc

theorem nodup_split {α : Type _} (x : α) (A B : List α)
    (h : (A ++ x :: B).Nodup) : x ∉ A ∧ x ∉ B := by
  rcases List.nodup_append.mp h with ⟨_, h2, h3⟩
  exact ⟨fun hx => h3 hx (List.mem_cons_self _ _),
    (List.nodup_cons.mp h2).1⟩

/-- Processing an entry whose publish attempt succeeds leaves its completed
version (post id and completion timestamp recorded) in the final schedule
table. -/
theorem execFold_hit_success (cfg : PosterConfig) (now : Nat)
    (rows : List DueRow) (db : DB) (r : DueRow) (s : ScheduleEntry)
    (pid : String) (hnd : (rows.map (fun r => r.schedule_id)).Nodup)
    (hr : r ∈ rows) (hpo : publishOutcome cfg r = some pid)
    (hs : s ∈ db.schedule) (hid : s.id = r.schedule_id) :
    { s with status := "completed", post_id := some pid,
             completed_at := some now } ∈
      (rows.foldl (applyRow cfg now) db).schedule := by
  obtain ⟨l₁, l₂, rfl⟩ := List.append_of_mem hr
  rw [List.map_append, List.map_cons] at hnd
  obtain ⟨h1, h2⟩ := nodup_split _ _ _ hnd
  rw [List.foldl_append, List.foldl_cons]
  have hs1 : s ∈ ((l₁.foldl (applyRow cfg now) db).schedule) :=
    execFold_frame_schedule cfg now l₁ db s hs (fun r' hr' heq => by
      have hrr : r.schedule_id = r'.schedule_id := by rw [← hid]; exact heq
      exact h1 (hrr ▸ List.mem_map_of_mem _ hr'))
  refine execFold_frame_schedule cfg now l₂ _ _ ?_ (fun r' hr' heq => by
    have hrr : r.schedule_id = r'.schedule_id := by rw [← hid]; exact heq
    exact h2 (hrr ▸ List.mem_map_of_mem _ hr'))
  unfold applyRow
  rw [hpo]
  have h3 := List.mem_map_of_mem (markCompleted now pid r.schedule_id) hs1
  rw [markCompleted_hit now pid r.schedule_id s hid] at h3
  exact h3

/-- Processing an entry whose publish attempt fails leaves its failed
version (retry counter bumped, error message recorded) in the final
schedule table. -/
theorem execFold_hit_failure (cfg : PosterConfig) (now : Nat)
    (rows : List DueRow) (db : DB) (r : DueRow) (s : ScheduleEntry)
    (hnd : (rows.map (fun r => r.schedule_id)).Nodup)
    (hr : r ∈ rows) (hpo : publishOutcome cfg r = none)
    (hs : s ∈ db.schedule) (hid : s.id = r.schedule_id) :
    { s with status := "failed", retry_count := s.retry_count + 1,
             error_message := some "Instagram posting failed" } ∈
      (rows.foldl (applyRow cfg now) db).schedule := by
  obtain ⟨l₁, l₂, rfl⟩ := List.append_of_mem hr
  rw [List.map_append, List.map_cons] at hnd
  obtain ⟨h1, h2⟩ := nodup_split _ _ _ hnd
  rw [List.foldl_append, List.foldl_cons]
  have hs1 : s ∈ ((l₁.foldl (applyRow cfg now) db).schedule) :=
    execFold_frame_schedule cfg now l₁ db s hs (fun r' hr' heq => by
      have hrr : r.schedule_id = r'.schedule_id := by rw [← hid]; exact heq
      exact h1 (hrr ▸ List.mem_map_of_mem _ hr'))
  refine execFold_frame_schedule cfg now l₂ _ _ ?_ (fun r' hr' heq => by
    have hrr : r.schedule_id = r'.schedule_id := by rw [← hid]; exact heq
    exact h2 (hrr ▸ List.mem_map_of_mem _ hr'))
  unfold applyRow
  rw [hpo]
  have h3 := List.mem_map_of_mem
    (markFailed "Instagram posting failed" r.schedule_id) hs1
  rw [markFailed_hit _ r.schedule_id s hid] at h3
  exact h3

theorem markPublished_keeps (now x : Nat) (c : Content)
    (hst : c.status = "published") (hp : c.published_at = some now) :
    (markPublished now x c).id = c.id ∧
      (markPublished now x c).status = "published" ∧
      (markPublished now x c).published_at = some now := by
  unfold markPublished
  split
  · exact ⟨rfl, rfl, rfl⟩
  · exact ⟨rfl, hst, hp⟩

/-- Once a content row is published with the sweep's timestamp, the rest of
the sweep keeps it published. -/
theorem execFold_content_published (cfg : PosterConfig) (now : Nat)
    (rows : List DueRow) (db : DB) (cid : Nat)
    (h : ∃ c ∈ db.content, c.id = cid ∧ c.status = "published" ∧
      c.published_at = some now) :
    ∃ c ∈ (rows.foldl (applyRow cfg now) db).content,
      c.id = cid ∧ c.status = "published" ∧ c.published_at = some now := by
  refine foldl_inv (applyRow cfg now)
    (fun db' => ∃ c ∈ db'.content, c.id = cid ∧ c.status = "published" ∧
      c.published_at = some now) rows db (fun db' r _ hP => ?_) h
  obtain ⟨c, hc, hcid, hst, hp⟩ := hP
  rcases applyRow_content_cases cfg now db' r with hcc | hcc
  · refine ⟨markPublished now r.content_id c, ?_, ?_⟩
    · rw [hcc]; exact List.mem_map_of_mem _ hc
    · obtain ⟨h1, h2, h3⟩ := markPublished_keeps now r.content_id c hst hp
      exact ⟨h1.trans hcid, h2, h3⟩
  · exact ⟨c, by rw [hcc]; exact hc, hcid, hst, hp⟩

/-- A content row keeps existing (under its id) throughout the sweep. -/
theorem execFold_content_id_mem (cfg : PosterConfig) (now : Nat)
    (rows : List DueRow) (db : DB) (cid : Nat)
    (h : ∃ c ∈ db.content, c.id = cid) :
    ∃ c ∈ (rows.foldl (applyRow cfg now) db).content, c.id = cid := by
  refine foldl_inv (applyRow cfg now)
    (fun db' => ∃ c ∈ db'.content, c.id = cid) rows db
    (fun db' r _ hP => ?_) h
  obtain ⟨c, hc, hcid⟩ := hP
  rcases applyRow_content_cases cfg now db' r with hcc | hcc
  · exact ⟨markPublished now r.content_id c,
      by rw [hcc]; exact List.mem_map_of_mem _ hc,
      (markPublished_id now r.content_id c).trans hcid⟩
  · exact ⟨c, by rw [hcc]; exact hc, hcid⟩

/-- A successfully published row leaves its content item published with the
sweep's timestamp in the final content table. -/
theorem execFold_publishes (cfg : PosterConfig) (now : Nat)
    (rows : List DueRow) (db : DB) (r : DueRow) (pid : String)
    (hr : r ∈ rows) (hpo : publishOutcome cfg r = some pid)
    (hc : ∃ c ∈ db.content, c.id = r.content_id) :
    ∃ c ∈ (rows.foldl (applyRow cfg now) db).content,
      c.id = r.content_id ∧ c.status = "published" ∧
      c.published_at = some now := by
  obtain ⟨l₁, l₂, rfl⟩ := List.append_of_mem hr
  rw [List.foldl_append, List.foldl_cons]
  refine execFold_content_published cfg now l₂ _ _ ?_
  obtain ⟨c, hc1, hcid⟩ := execFold_content_id_mem cfg now l₁ db _ hc
  refine ⟨markPublished now r.content_id c, ?_, ?_⟩
  · unfold applyRow
    rw [hpo]
    exact List.mem_map_of_mem _ hc1
  · rw [markPublished_hit now r.content_id c hcid]
    exact ⟨hcid, rfl, rfl⟩

/-! Scheduler-executor (`process_scheduled_posts`) counterparts. -/

theorem applyRowScheduler_businesses (cfg : PosterConfig) (now : Nat)
    (db : DB) (r : DueRow) :
    (applyRowScheduler cfg now db r).businesses = db.businesses := by
  unfold applyRowScheduler
  cases db.businesses.find? (fun b => b.id == r.business_id)
  · rfl
  · cases publishOutcome cfg r <;> rfl

theorem applyRowScheduler_performance (cfg : PosterConfig) (now : Nat)
    (db : DB) (r : DueRow) :
    (applyRowScheduler cfg now db r).performance = db.performance := by
  unfold applyRowScheduler
  cases db.businesses.find? (fun b => b.id == r.business_id)
  · rfl
  · cases publishOutcome cfg r <;> rfl

theorem schedFold_businesses (cfg : PosterConfig) (now : Nat) :
    ∀ (rows : List DueRow) (db : DB),
      (rows.foldl (applyRowScheduler cfg now) db).businesses = db.businesses
  | [], _ => rfl
  | r :: rows, db => by
    rw [List.foldl_cons, schedFold_businesses cfg now rows,
      applyRowScheduler_businesses]

/-- `process_scheduled_posts` never writes to the performance table. -/
theorem schedFold_performance (cfg : PosterConfig) (now : Nat) :
    ∀ (rows : List DueRow) (db : DB),
      (rows.foldl (applyRowScheduler cfg now) db).performance =
        db.performance
  | [], _ => rfl
  | r :: rows, db => by
    rw [List.foldl_cons, schedFold_performance cfg now rows,
      applyRowScheduler_performance]

theorem schedFold_frame_schedule (cfg : PosterConfig) (now : Nat) :
    ∀ (rows : List DueRow) (db : DB) (s : ScheduleEntry),
      s ∈ db.schedule → (∀ r ∈ rows, s.id ≠ r.schedule_id) →
      s ∈ (rows.foldl (applyRowScheduler cfg now) db).schedule
  | [], _, _, hs, _ => hs
  | r :: rows, db, s, hs, hne => by
    rw [List.foldl_cons]
    refine schedFold_frame_schedule cfg now rows _ s ?_
      (fun r' hr' => hne r' (List.mem_cons_of_mem _ hr'))
    have hid : s.id ≠ r.schedule_id := hne r (List.mem_cons_self _ _)
    unfold applyRowScheduler
    cases db.businesses.find? (fun b => b.id == r.business_id) with
    | none => exact hs
    | some b =>
        cases publishOutcome cfg r with
        | some pid =>
            have h1 := List.mem_map_of_mem
              (markCompleted now pid r.schedule_id) hs
            rw [markCompleted_ne now pid r.schedule_id s hid] at h1
            exact h1
        | none =>
            have h1 := List.mem_map_of_mem
              (markFailed "Instagram posting failed" r.schedule_id) hs
            rw [markFailed_ne _ r.schedule_id s hid] at h1
            exact h1

theorem schedFold_frame_content (cfg : PosterConfig) (now : Nat) :
    ∀ (rows : List DueRow) (db : DB) (c : Content),
      c ∈ db.content →
      (∀ r ∈ rows, r.content_id = c.id → publishOutcome cfg r = none) →
      c ∈ (rows.foldl (applyRowScheduler cfg now) db).content
  | [], _, _, hc, _ => hc
  | r :: rows, db, c, hc, hno => by
    rw [List.foldl_cons]
    refine schedFold_frame_content cfg now rows _ c ?_
      (fun r' hr' => hno r' (List.mem_cons_of_mem _ hr'))
    unfold applyRowScheduler
    cases db.businesses.find? (fun b => b.id == r.business_id) with
    | none => exact hc
    | some b =>
        cases hpo : publishOutcome cfg r with
        | some pid =>
            have hne : c.id ≠ r.content_id := by
              intro h
              rw [hno r (List.mem_cons_self _ _) h.symm] at hpo
              cases hpo
            have h1 := List.mem_map_of_mem (markPublished now r.content_id) hc
            rw [markPublished_ne now r.content_id c hne] at h1
            exact h1
        | none => exact hc

theorem applyRowScheduler_hit_failure (cfg : PosterConfig) (now : Nat)
    (db : DB) (r : DueRow) (s : ScheduleEntry) (b : Business)
    (hpo : publishOutcome cfg r = none)
    (hfb : db.businesses.find? (fun b => b.id == r.business_id) = some b)
    (hs : s ∈ db.schedule) (hid : s.id = r.schedule_id) :
    { s with status := "failed", retry_count := s.retry_count + 1,
             error_message := some "Instagram posting failed" } ∈
      (applyRowScheduler cfg now db r).schedule := by
  unfold applyRowScheduler
  rw [hfb, hpo]
  have h3 := List.mem_map_of_mem
    (markFailed "Instagram posting failed" r.schedule_id) hs
  rw [markFailed_hit _ r.schedule_id s hid] at h3
  exact h3

theorem applyRowScheduler_hit_success (cfg : PosterConfig) (now : Nat)
    (db : DB) (r : DueRow) (s : ScheduleEntry) (b : Business) (pid : String)
    (hpo : publishOutcome cfg r = some pid)
    (hfb : db.businesses.find? (fun b => b.id == r.business_id) = some b)
    (hs : s ∈ db.schedule) (hid : s.id = r.schedule_id) :
    { s with status := "completed", post_id := some pid,
             completed_at := some now } ∈
      (applyRowScheduler cfg now db r).schedule := by
  unfold applyRowScheduler
  rw [hfb, hpo]
  have h3 := List.mem_map_of_mem (markCompleted now pid r.schedule_id) hs
  rw [markCompleted_hit now pid r.schedule_id s hid] at h3
  exact h3

/-- Scheduler analogue of `execFold_hit_failure`: a failing due row whose
business row exists ends up failed with the retry counter bumped. -/
theorem schedFold_hit_failure (cfg : PosterConfig) (now : Nat)
    (rows : List DueRow) (db : DB) (r : DueRow) (s : ScheduleEntry)
    (b : Business) (hnd : (rows.map (fun r => r.schedule_id)).Nodup)
    (hr : r ∈ rows) (hpo : publishOutcome cfg r = none)
    (hfb : db.businesses.find? (fun b => b.id == r.business_id) = some b)
    (hs : s ∈ db.schedule) (hid : s.id = r.schedule_id) :
    { s with status := "failed", retry_count := s.retry_count + 1,
             error_message := some "Instagram posting failed" } ∈
      (rows.foldl (applyRowScheduler cfg now) db).schedule := by
  obtain ⟨l₁, l₂, rfl⟩ := List.append_of_mem hr
  rw [List.map_append, List.map_cons] at hnd
  obtain ⟨h1, h2⟩ := nodup_split _ _ _ hnd
  rw [List.foldl_append, List.foldl_cons]
  have hs1 : s ∈ ((l₁.foldl (applyRowScheduler cfg now) db).schedule) :=
    schedFold_frame_schedule cfg now l₁ db s hs (fun r' hr' heq => by
      have hrr : r.schedule_id = r'.schedule_id := by rw [← hid]; exact heq
      exact h1 (hrr ▸ List.mem_map_of_mem _ hr'))
  refine schedFold_frame_schedule cfg now l₂ _ _ ?_ (fun r' hr' heq => by
    have hrr : r.schedule_id = r'.schedule_id := by rw [← hid]; exact heq
    exact h2 (hrr ▸ List.mem_map_of_mem _ hr'))
  have hfb1 : (l₁.foldl (applyRowScheduler cfg now) db).businesses.find?
      (fun b => b.id == r.business_id) = some b := by
    rw [schedFold_businesses]; exact hfb
  exact applyRowScheduler_hit_failure cfg now _ r s b hpo hfb1 hs1 hid

/-- Scheduler analogue of `execFold_hit_success`. -/
theorem schedFold_hit_success (cfg : PosterConfig) (now : Nat)
    (rows : List DueRow) (db : DB) (r : DueRow) (s : ScheduleEntry)
    (b : Business) (pid : String)
    (hnd : (rows.map (fun r => r.schedule_id)).Nodup)
    (hr : r ∈ rows) (hpo : publishOutcome cfg r = some pid)
    (hfb : db.businesses.find? (fun b => b.id == r.business_id) = some b)
    (hs : s ∈ db.schedule) (hid : s.id = r.schedule_id) :
    { s with status := "completed", post_id := some pid,
             completed_at := some now } ∈
      (rows.foldl (applyRowScheduler cfg now) db).schedule := by
  obtain ⟨l₁, l₂, rfl⟩ := List.append_of_mem hr
  rw [List.map_append, List.map_cons] at hnd
  obtain ⟨h1, h2⟩ := nodup_split _ _ _ hnd
  rw [List.foldl_append, List.foldl_cons]
  have hs1 : s ∈ ((l₁.foldl (applyRowScheduler cfg now) db).schedule) :=
    schedFold_frame_schedule cfg now l₁ db s hs (fun r' hr' heq => by
      have hrr : r.schedule_id = r'.schedule_id := by rw [← hid]; exact heq
      exact h1 (hrr ▸ List.mem_map_of_mem _ hr'))
  refine schedFold_frame_schedule cfg now l₂ _ _ ?_ (fun r' hr' heq => by
    have hrr : r.schedule_id = r'.schedule_id := by rw [← hid]; exact heq
    exact h2 (hrr ▸ List.mem_map_of_mem _ hr'))
  have hfb1 : (l₁.foldl (applyRowScheduler cfg now) db).businesses.find?
      (fun b => b.id == r.business_id) = some b := by
    rw [schedFold_businesses]; exact hfb
  exact applyRowScheduler_hit_success cfg now _ r s b pid hpo hfb1 hs1 hid

/-! ### Content-count lemmas -/

/-- Number of content rows of one business (all days). -/
def countFor (db : DB) (bid : Nat) : Nat :=
  (db.content.filter (fun c => c.business_id == bid)).length

theorem filter_length_map_of_inv {α : Type _} (f : α → α) (p : α → Bool)
    (hf : ∀ a, p (f a) = p a) :
    ∀ l : List α, ((l.map f).filter p).length = (l.filter p).length
  | [] => rfl
  | a :: l => by
    rw [List.map_cons, List.filter_cons, List.filter_cons, hf]
    split <;> simp [filter_length_map_of_inv f p hf l]

theorem applyRow_todayCount (cfg : PosterConfig) (now : Nat) (db : DB)
    (r : DueRow) (bid d : Nat) :
    todayCount (applyRow cfg now db r) bid d = todayCount db bid d := by
  unfold todayCount
  rcases applyRow_content_cases cfg now db r with h | h <;> rw [h]
  exact filter_length_map_of_inv _ _
    (fun c => by rw [markPublished_business_id, markPublished_created_at]) _

theorem applyRow_countFor (cfg : PosterConfig) (now : Nat) (db : DB)
    (r : DueRow) (bid : Nat) :
    countFor (applyRow cfg now db r) bid = countFor db bid := by
  unfold countFor
  rcases applyRow_content_cases cfg now db r with h | h <;> rw [h]
  exact filter_length_map_of_inv _ _
    (fun c => by rw [markPublished_business_id]) _

theorem execFold_todayCount (cfg : PosterConfig) (now : Nat) :
    ∀ (rows : List DueRow) (db : DB) (bid d : Nat),
      todayCount (rows.foldl (applyRow cfg now) db) bid d =
        todayCount db bid d
  | [], _, _, _ => rfl
  | r :: rows, db, bid, d => by
    rw [List.foldl_cons, execFold_todayCount cfg now rows, applyRow_todayCount]

theorem execFold_countFor (cfg : PosterConfig) (now : Nat) :
    ∀ (rows : List DueRow) (db : DB) (bid : Nat),
      countFor (rows.foldl (applyRow cfg now) db) bid = countFor db bid
  | [], _, _ => rfl
  | r :: rows, db, bid => by
    rw [List.foldl_cons, execFold_countFor cfg now rows, applyRow_countFor]

theorem execute_todayCount (cfg : PosterConfig) (now : Nat) (db : DB)
    (bid d : Nat) :
    todayCount (execute_scheduled_posts cfg now db) bid d =
      todayCount db bid d :=
  execFold_todayCount cfg now (dueRows db now) db bid d

theorem execute_countFor (cfg : PosterConfig) (now : Nat) (db : DB)
    (bid : Nat) :
    countFor (execute_scheduled_posts cfg now db) bid = countFor db bid :=
  execFold_countFor cfg now (dueRows db now) db bid

theorem execute_settings (cfg : PosterConfig) (now : Nat) (db : DB) :
    (execute_scheduled_posts cfg now db).settings = db.settings :=
  execFold_settings cfg now (dueRows db now) db

theorem todayCount_append (db : DB) (c : Content) (bid d : Nat) :
    todayCount { db with content := db.content ++ [c] } bid d =
      todayCount db bid d +
        (if c.business_id == bid && (dayOf c.created_at == d) then 1 else 0) := by
  unfold todayCount
  rw [show ({ db with content := db.content ++ [c] } : DB).content =
    db.content ++ [c] from rfl, List.filter_append, List.length_append]
  cases hp : (c.business_id == bid && (dayOf c.created_at == d)) <;>
    simp [List.filter_cons, hp]

theorem countFor_append (db : DB) (c : Content) (bid : Nat) :
    countFor { db with content := db.content ++ [c] } bid =
      countFor db bid + (if c.business_id == bid then 1 else 0) := by
  unfold countFor
  rw [show ({ db with content := db.content ++ [c] } : DB).content =
    db.content ++ [c] from rfl, List.filter_append, List.length_append]
  cases hp : (c.business_id == bid) <;> simp [List.filter_cons, hp]

/-! ### AutomationEngine lemmas -/

theorem schedule_content_post_content (db : DB) (bid cid : Nat)
    (st : Option Nat) (now ri nid : Nat) :
    (schedule_content_post db bid cid st now ri nid).content = db.content :=
  rfl

theorem schedule_content_post_settings (db : DB) (bid cid : Nat)
    (st : Option Nat) (now ri nid : Nat) :
    (schedule_content_post db bid cid st now ri nid).settings = db.settings :=
  rfl

theorem schedule_content_post_schedule (db : DB) (bid cid : Nat)
    (st : Option Nat) (now ri nid : Nat) :
    (schedule_content_post db bid cid st now ri nid).schedule =
      db.schedule ++
        [⟨nid, bid, cid, st.getD (computeScheduledTime db bid now ri),
          "pending", none, none, 0, now, none⟩] :=
  rfl

theorem todayCount_schedule_content_post (db : DB) (bid cid : Nat)
    (st : Option Nat) (now ri nid : Nat) (bid' d : Nat) :
    todayCount (schedule_content_post db bid cid st now ri nid) bid' d =
      todayCount db bid' d :=
  rfl

theorem countFor_schedule_content_post (db : DB) (bid cid : Nat)
    (st : Option Nat) (now ri nid : Nat) (bid' : Nat) :
    countFor (schedule_content_post db bid cid st now ri nid) bid' =
      countFor db bid' :=
  rfl

/-- Characterization of a successful `generate_automated_content` call: the
only write is one appended `draft` content row owned by the requested
business and created now. -/
theorem gen_some (g : Gen) (db : DB) (bid now : Nat) (db2 : DB) (cid : Nat)
    (h : generate_automated_content g db bid now = some (db2, cid)) :
    db2.users = db.users ∧ db2.businesses = db.businesses ∧
      db2.settings = db.settings ∧ db2.schedule = db.schedule ∧
      ∃ cap img, db2.content =
        db.content ++ [⟨cid, bid, cap, img, "draft", now, none⟩] := by
  unfold generate_automated_content at h
  cases hfb : db.businesses.find? (fun b => b.id == bid) with
  | none => rw [hfb] at h; cases h
  | some b =>
      rw [hfb] at h
      dsimp only at h
      by_cases he : (((db.settings.find? (fun s => s.business_id == bid)).map
          (fun s => s.auto_post_enabled)).getD false) = true
      · rw [if_pos he] at h
        have h2 := Option.some.inj h
        have hdb : ({ db with content := db.content ++
            [⟨freshContentId db, bid, g.caption b, g.image b.industry,
              "draft", now, none⟩] } : DB) = db2 := congrArg Prod.fst h2
        have hcid : freshContentId db = cid := congrArg Prod.snd h2
        subst hdb
        subst hcid
        exact ⟨rfl, rfl, rfl, rfl, g.caption b, g.image b.industry, rfl⟩
      · rw [if_neg he] at h; cases h

theorem runBusinessStep_settings (g : Gen) (now ri : Nat) (db : DB)
    (b : Business) : (runBusinessStep g now ri db b).settings = db.settings := by
  unfold runBusinessStep
  split
  · cases hgen : generate_automated_content g db b.id now with
    | none => rfl
    | some p =>
        obtain ⟨db2, cid⟩ := p
        rw [schedule_content_post_settings]
        exact (gen_some g db b.id now db2 cid hgen).2.2.1
  · rfl

/-- One pass of the daily loop keeps today's per-business content count
within the configured frequency. -/
theorem runBusinessStep_todayCount_le (g : Gen) (now ri : Nat) (db : DB)
    (b : Business) (bid : Nat)
    (hle : todayCount db bid (dayOf now) ≤ freqOf db bid) :
    todayCount (runBusinessStep g now ri db b) bid (dayOf now) ≤
      freqOf db bid := by
  unfold runBusinessStep
  split
  case isTrue hlt =>
    cases hgen : generate_automated_content g db b.id now with
    | none => exact hle
    | some p =>
        obtain ⟨db2, cid⟩ := p
        obtain ⟨_, _, _, _, cap, img, hcont⟩ :=
          gen_some g db b.id now db2 cid hgen
        rw [todayCount_schedule_content_post]
        have hc2 : todayCount db2 bid (dayOf now) =
            todayCount db bid (dayOf now) +
              (if b.id == bid then 1 else 0) := by
          unfold todayCount
          rw [hcont, List.filter_append, List.length_append]
          congr 1
          cases hb : (b.id == bid) <;> simp [List.filter_cons, hb]
        rw [hc2]
        by_cases hb : b.id = bid
        · subst hb
          simp only [beq_self_eq_true, if_true]
          omega
        · rw [beq_eq_false_iff_ne.mpr hb]
          simpa using hle
  case isFalse => exact hle

theorem runBusinessStep_countFor_ne (g : Gen) (now ri : Nat) (db : DB)
    (b : Business) (bid : Nat) (hne : b.id ≠ bid) :
    countFor (runBusinessStep g now ri db b) bid = countFor db bid := by
  unfold runBusinessStep
  split
  · cases hgen : generate_automated_content g db b.id now with
    | none => rfl
    | some p =>
        obtain ⟨db2, cid⟩ := p
        obtain ⟨_, _, _, _, cap, img, hcont⟩ :=
          gen_some g db b.id now db2 cid hgen
        rw [countFor_schedule_content_post]
        unfold countFor
        rw [hcont, List.filter_append, List.length_append]
        simp [List.filter_cons, beq_eq_false_iff_ne.mpr hne]
  · rfl

theorem freqOf_congr (db1 db2 : DB) (bid : Nat)
    (h : db1.settings = db2.settings) : freqOf db1 bid = freqOf db2 bid := by
  unfold freqOf; rw [h]

/-- Membership in the active-business query implies an enabled settings
row. -/
theorem activeRows_enabled (db : DB) (b : Business) (h : b ∈ activeRows db) :
    ∃ s ∈ db.settings, s.business_id = b.id ∧ s.auto_post_enabled = true := by
  unfold activeRows at h
  have h2 := (List.mem_filter.mp h).2
  rw [Bool.and_eq_true] at h2
  obtain ⟨h1, _⟩ := h2
  rw [List.any_eq_true] at h1
  obtain ⟨s, hs, hcond⟩ := h1
  rw [Bool.and_eq_true] at hcond
  exact ⟨s, hs, by simpa using hcond.1, hcond.2⟩

/-! ### `generate_daily_content` lemmas -/

/-- One pass of the scheduler's daily loop keeps today's per-business
content count within the hardcoded cap of 3. -/
theorem genDailyStep_todayCount_le (g : Gen) (now : Nat) (db : DB)
    (b : Business) (bid : Nat)
    (hle : todayCount db bid (dayOf now) ≤ 3) :
    todayCount (genDailyStep g now db b) bid (dayOf now) ≤ 3 := by
  unfold genDailyStep
  split
  case isTrue hlt =>
    have hc2 : todayCount { db with content := db.content ++
        [⟨freshContentId db, b.id, g.caption b, g.image b.industry, "draft",
          now, none⟩] } bid (dayOf now) =
        todayCount db bid (dayOf now) + (if b.id == bid then 1 else 0) := by
      unfold todayCount
      rw [show ({ db with content := db.content ++
          [⟨freshContentId db, b.id, g.caption b, g.image b.industry,
            "draft", now, none⟩] } : DB).content = db.content ++
          [⟨freshContentId db, b.id, g.caption b, g.image b.industry,
            "draft", now, none⟩] from rfl]
      rw [List.filter_append, List.length_append]
      congr 1
      cases hb : (b.id == bid) <;> simp [List.filter_cons, hb]
    rw [hc2]
    by_cases hb : b.id = bid
    · subst hb
      simp only [beq_self_eq_true, if_true]
      omega
    · rw [beq_eq_false_iff_ne.mpr hb]
      simpa using hle
  case isFalse => exact hle

/-- `genDailyStep` never reads the settings table, so replacing that table
commutes with the step. -/
theorem genDailyStep_settings_swap (g : Gen) (now : Nat) (db : DB)
    (s' : List BusinessSettings) (b : Business) :
    genDailyStep g now { db with settings := s' } b =
      { genDailyStep g now db b with settings := s' } := by
  unfold genDailyStep
  by_cases h : todayCount { db with settings := s' } b.id (dayOf now) < 3
  · rw [if_pos h, if_pos (show todayCount db b.id (dayOf now) < 3 from h)]
    rfl
  · rw [if_neg h, if_neg (show ¬todayCount db b.id (dayOf now) < 3 from h)]

theorem genDaily_fold_settings_swap (g : Gen) (now : Nat)
    (s' : List BusinessSettings) :
    ∀ (l : List Business) (db : DB),
      l.foldl (genDailyStep g now) { db with settings := s' } =
        { l.foldl (genDailyStep g now) db with settings := s' }
  | [], _ => rfl
  | b :: l, db => by
    rw [List.foldl_cons, List.foldl_cons, genDailyStep_settings_swap,
      genDaily_fold_settings_swap g now s' l]

/-! ### Due-pending characterization and sortedness -/

theorem isDuePending_iff (now : Nat) (e : ScheduleEntry) :
    isDuePending now e = true ↔
      e.scheduled_datetime ≤ now ∧ e.status = "pending" := by
  simp [isDuePending]

/-- The due rows of `execute_scheduled_posts` are sorted by target
timestamp, earliest first. -/
theorem dueRows_sorted (db : DB) (now : Nat) :
    List.Pairwise
      (fun a b : DueRow => a.scheduled_datetime ≤ b.scheduled_datetime)
      (dueRows db now) := by
  have htrans : ∀ (a b c : DueRow),
      decide (a.scheduled_datetime ≤ b.scheduled_datetime) = true →
      decide (b.scheduled_datetime ≤ c.scheduled_datetime) = true →
      decide (a.scheduled_datetime ≤ c.scheduled_datetime) = true := by
    intro a b c h1 h2
    simp only [decide_eq_true_eq] at *
    omega
  have htotal : ∀ (a b : DueRow),
      (decide (a.scheduled_datetime ≤ b.scheduled_datetime) ||
        decide (b.scheduled_datetime ≤ a.scheduled_datetime)) = true := by
    intro a b
    simp only [Bool.or_eq_true, decide_eq_true_eq]
    omega
  have h := List.sorted_mergeSort htrans htotal
    ((db.schedule.filter (isDuePending now)).filterMap
      (joinContentBusiness db))
  exact h.imp (fun hab => by simpa using hab)

/-! ### Concrete fixtures for witnesses and counterexamples -/

def genG : Gen := ⟨fun _ => "auto-cap", fun _ => "auto-img"⟩

/-- Poster with no credentials configured: test mode. -/
def cfgNone : PosterConfig := ⟨none, none, fun _ _ => none, fun _ => none, 7⟩

/-- Poster with credentials whose stage call fails. -/
def cfgFail : PosterConfig :=
  ⟨some "tok", some "acct", fun _ _ => none, fun _ => none, 7⟩

def uA : User := ⟨1, true⟩

def bizA : Business := ⟨1, 1, "Demo Cafe", "restaurant"⟩

def setA : BusinessSettings := ⟨1, true, 1, [540, 1080]⟩

def setOff : BusinessSettings := ⟨1, false, 1, [540]⟩

def contA : Content := ⟨1, 1, "caption one", "img-1", "draft", 0, none⟩

def entA : ScheduleEntry := ⟨1, 1, 1, 5, "pending", none, none, 0, 0, none⟩

def dbA : DB := ⟨[uA], [bizA], [setA], [contA], [entA], []⟩

def entFuture : ScheduleEntry := ⟨2, 1, 1, 999, "pending", none, none, 0, 0, none⟩

def entDone : ScheduleEntry :=
  ⟨3, 1, 1, 5, "completed", some "p0", none, 0, 0, some 6⟩

def dbC7 : DB := ⟨[uA], [bizA], [setA], [contA], [entA, entFuture, entDone], []⟩

def entEarly : ScheduleEntry := ⟨2, 1, 1, 3, "pending", none, none, 0, 0, none⟩

def dbC8 : DB := ⟨[uA], [bizA], [setA], [contA], [entA, entEarly], []⟩

def dbC2 : DB := ⟨[uA], [bizA], [setA], [contA], [], []⟩

def dbC3 : DB := ⟨[uA], [bizA], [setA], [], [], []⟩

def dbC4 : DB := ⟨[uA], [bizA], [setOff], [], [], []⟩

def entOldFailed : ScheduleEntry :=
  ⟨1, 1, 1, 5, "failed", none, some "err", 1, 0, some 0⟩

def dbC9 : DB := ⟨[], [], [], [], [entOldFailed], []⟩

/-- Number of pending schedule entries referencing one content item. -/
def pendingCountFor (db : DB) (cid : Nat) : Nat :=
  (db.schedule.filter
    (fun e => e.content_id == cid && e.status == "pending")).length

/-! ### Claim C2 -/

/-- C2, counterexample: starting from a state reached by one enqueue (one
pending entry for content item 1), a second `schedule_content_post` call for
the same content item is not rejected — it creates a second pending entry,
so the "at most one pending entry per content item" invariant fails. -/
theorem C2_counterexample :
    pendingCountFor (schedule_content_post dbC2 1 1 none 0 0 1) 1 = 1 ∧
    pendingCountFor
      (schedule_content_post (schedule_content_post dbC2 1 1 none 0 0 1)
        1 1 none 0 0 2) 1 = 2 := by
  constructor <;> decide

/-- C2 (corrected): `schedule_content_post` performs no duplicate check at
all — every call unconditionally appends one more pending schedule entry for
the given content item, so the pending count for that content item always
grows by exactly 1, even when a pending entry already exists. -/
theorem C2_amended_thm (db : DB) (bid cid : Nat) (st : Option Nat)
    (now ri nid : Nat) :
    pendingCountFor (schedule_content_post db bid cid st now ri nid) cid =
      pendingCountFor db cid + 1 := by
  unfold pendingCountFor
  rw [schedule_content_post_schedule, List.filter_append, List.length_append]
  simp [List.filter_cons]

/-! ### Claim C5 -/

/-- C5, counterexample: after a successful `schedule_content_post` for
content item 1 (status `draft`), the content table is completely unchanged —
no row has status `scheduled`, refuting the claimed ContentItem transition. -/
theorem C5_counterexample :
    contA.status = "draft" ∧
    (schedule_content_post dbA 1 1 none 0 0 2).content = [contA] ∧
    ∀ c ∈ (schedule_content_post dbA 1 1 none 0 0 2).content,
      c.status ≠ "scheduled" := by
  refine ⟨rfl, rfl, by decide⟩

/-- C5 (corrected): a successful enqueue creates exactly one new
ScheduleEntry with status `pending`, retry count 0 and the computed target
timestamp, linked to the given content item — but it never writes to the
content table: the ContentItem keeps its previous status (it is not moved to
`scheduled`). -/
theorem C5_amended_thm (db : DB) (bid cid : Nat) (st : Option Nat)
    (now ri nid : Nat) :
    (schedule_content_post db bid cid st now ri nid).content = db.content ∧
    (schedule_content_post db bid cid st now ri nid).schedule =
      db.schedule ++
        [⟨nid, bid, cid, st.getD (computeScheduledTime db bid now ri),
          "pending", none, none, 0, now, none⟩] :=
  ⟨rfl, rfl⟩

/-! ### Claim C3 -/

/-- C3, counterexample: business 1 is configured with `post_frequency = 1`,
yet two runs of `generate_daily_content` on the same day create 2 content
items — the scheduler's daily generator caps at the hardcoded 3, not at the
configured quota. -/
theorem C3_counterexample :
    freqOf dbC3 1 = 1 ∧
    todayCount (generate_daily_content genG 0
      (generate_daily_content genG 0 dbC3)) 1 (dayOf 0) = 2 := by
  constructor <;> decide

/-- C3 (corrected): `run_daily_automation` never pushes a business's
same-day content count above its configured `post_frequency`, however often
it is re-run; `generate_daily_content` instead enforces only the hardcoded
cap of 3 content items per day, ignoring `post_frequency`. -/
theorem C3_amended_thm :
    (∀ (g : Gen) (cfg : PosterConfig) (now ri : Nat) (db : DB) (bid : Nat),
      todayCount db bid (dayOf now) ≤ freqOf db bid →
      todayCount (run_daily_automation g cfg now ri db) bid (dayOf now) ≤
        freqOf db bid) ∧
    (∀ (g : Gen) (now : Nat) (db : DB) (bid : Nat),
      todayCount db bid (dayOf now) ≤ 3 →
      todayCount (generate_daily_content g now db) bid (dayOf now) ≤ 3) := by
  constructor
  · intro g cfg now ri db bid hle
    unfold run_daily_automation
    rw [execute_todayCount]
    have h := foldl_inv (runBusinessStep g now ri)
      (fun db' => db'.settings = db.settings ∧
        todayCount db' bid (dayOf now) ≤ freqOf db bid)
      (activeRows db) db
      (fun db' b _ hP => by
        refine ⟨by rw [runBusinessStep_settings]; exact hP.1, ?_⟩
        have hfq : freqOf db' bid = freqOf db bid :=
          freqOf_congr db' db bid hP.1
        have h2 := runBusinessStep_todayCount_le g now ri db' b bid
          (by rw [hfq]; exact hP.2)
        rw [hfq] at h2
        exact h2)
      ⟨rfl, hle⟩
    exact h.2
  · intro g now db bid hle
    unfold generate_daily_content
    exact foldl_inv (genDailyStep g now)
      (fun db' => todayCount db' bid (dayOf now) ≤ 3)
      (activeForScheduler db) db
      (fun db' b _ h => genDailyStep_todayCount_le g now db' b bid h) hle

/-- C3, witness: the amended quota bounds instantiated on a concrete
database. -/
theorem C3_witness :
    todayCount (run_daily_automation genG cfgNone 0 0 dbC3) 1 (dayOf 0) ≤
      freqOf dbC3 1 ∧
    todayCount (generate_daily_content genG 0 dbC3) 1 (dayOf 0) ≤ 3 :=
  ⟨C3_amended_thm.1 genG cfgNone 0 0 dbC3 1 (by decide),
   C3_amended_thm.2 genG 0 dbC3 1 (by decide)⟩

/-! ### Claim C4 -/

/-- C4, counterexample: business 1 has `auto_post_enabled = FALSE`, yet one
run of `generate_daily_content` creates a content item for it — the
scheduler's daily generator never consults `business_settings`. -/
theorem C4_counterexample :
    (∀ s ∈ dbC4.settings, s.business_id = 1 → s.auto_post_enabled = false) ∧
    countFor dbC4 1 = 0 ∧
    countFor (generate_daily_content genG 0 dbC4) 1 = 1 := by
  refine ⟨by decide, rfl, by decide⟩

/-- C4 (corrected): `run_daily_automation` creates zero content items for a
business whose every settings row has the enabled flag off; but
`generate_daily_content` ignores the settings table entirely (its result is
the same for any replacement of that table), so it creates content even for
disabled businesses. -/
theorem C4_amended_thm :
    (∀ (g : Gen) (cfg : PosterConfig) (now ri : Nat) (db : DB) (bid : Nat),
      (∀ s ∈ db.settings, s.business_id = bid → s.auto_post_enabled = false) →
      countFor (run_daily_automation g cfg now ri db) bid = countFor db bid) ∧
    (∀ (g : Gen) (now : Nat) (db : DB) (s' : List BusinessSettings),
      generate_daily_content g now { db with settings := s' } =
        { generate_daily_content g now db with settings := s' }) := by
  constructor
  · intro g cfg now ri db bid hdis
    unfold run_daily_automation
    rw [execute_countFor]
    refine foldl_inv (runBusinessStep g now ri)
      (fun db' => countFor db' bid = countFor db bid)
      (activeRows db) db (fun db' b hb hP => ?_) rfl
    have hne : b.id ≠ bid := by
      obtain ⟨sr, hsr, hsb, hsen⟩ := activeRows_enabled db b hb
      intro h
      have h2 := hdis sr hsr (by rw [hsb, h])
      rw [h2] at hsen
      cases hsen
    show countFor (runBusinessStep g now ri db' b) bid = countFor db bid
    rw [runBusinessStep_countFor_ne g now ri db' b bid hne]
    exact hP
  · intro g now db s'
    unfold generate_daily_content
    rw [show activeForScheduler { db with settings := s' } =
      activeForScheduler db from rfl]
    exact genDaily_fold_settings_swap g now s' (activeForScheduler db) db

/-- C4, witness: the disabled business of the counterexample database gains
no content from `run_daily_automation`. -/
theorem C4_witness :
    countFor (run_daily_automation genG cfgNone 0 0 dbC4) 1 =
      countFor dbC4 1 :=
  C4_amended_thm.1 genG cfgNone 0 0 dbC4 1 (by decide)

/-! ### Claim C9 -/

/-- C9, counterexample: a `failed` entry far older than the retention window
is terminal and old, yet `cleanup_old_data` keeps it — the DELETE matches
only status `completed`. -/
theorem C9_counterexample :
    entOldFailed.status = "failed" ∧
    (∃ t, entOldFailed.completed_at = some t ∧ t < retentionCutoff 100000) ∧
    (cleanup_old_data 100000 dbC9).schedule = [entOldFailed] := by
  refine ⟨rfl, ⟨0, rfl, by decide⟩, by decide⟩

theorem isOldCompleted_iff (cutoff : Nat) (e : ScheduleEntry) :
    isOldCompleted cutoff e = true ↔
      e.status = "completed" ∧
        ∃ t, e.completed_at = some t ∧ t < cutoff := by
  unfold isOldCompleted
  cases hca : e.completed_at with
  | none => simp [hca]
  | some t0 => simp [hca]

/-- C9 (corrected): the cleanup deletes exactly the schedule entries with
status `completed` whose completion timestamp lies before the 30-day
cutoff; every other entry — in particular every `failed`, `cancelled` or
`pending` entry, however old — survives unchanged. -/
theorem C9_amended_thm (now : Nat) (db : DB) (e : ScheduleEntry)
    (he : e ∈ db.schedule) :
    e ∈ (cleanup_old_data now db).schedule ↔
      ¬(e.status = "completed" ∧
        ∃ t, e.completed_at = some t ∧ t < retentionCutoff now) := by
  have hsch : (cleanup_old_data now db).schedule =
      db.schedule.filter
        (fun x => !(isOldCompleted (retentionCutoff now) x)) := rfl
  rw [hsch]
  rw [List.mem_filter]
  rw [← isOldCompleted_iff (retentionCutoff now) e]
  simp [he]

/-- C9, witness: a pending entry survives the cleanup. -/
theorem C9_witness : entA ∈ (cleanup_old_data 100000 dbA).schedule :=
  (C9_amended_thm 100000 dbA entA (by decide)).mpr
    (fun h => absurd h.1 (by decide))

/-! ### Claim C8 -/

/-- C8, counterexample: in a concrete table holding two due pending entries
(stored in id order, the earlier target time second), the scheduler's due
query — which has no ORDER BY — returns the later-due entry first, so
`process_scheduled_posts` attempts it first. -/
theorem C8_counterexample :
    (dueRowsNoOrder dbC8 10).map (fun r => r.scheduled_datetime) = [5, 3] ∧
    ¬ List.Pairwise
        (fun a b : DueRow => a.scheduled_datetime ≤ b.scheduled_datetime)
        (dueRowsNoOrder dbC8 10) := by
  constructor <;> decide

/-- C8 (corrected): `execute_scheduled_posts` does process its due rows in
ascending target-timestamp order (its query sorts, and loses no row: the
processed list is a permutation of the filtered join); but
`process_scheduled_posts` in scheduler.py issues no ORDER BY and processes
the due rows in table storage order, which need not be ascending. -/
theorem C8_amended_thm (db : DB) (now : Nat) :
    List.Pairwise
      (fun a b : DueRow => a.scheduled_datetime ≤ b.scheduled_datetime)
      (dueRows db now) ∧
    (dueRows db now).Perm
      ((db.schedule.filter (isDuePending now)).filterMap
        (joinContentBusiness db)) :=
  ⟨dueRows_sorted db now, List.mergeSort_perm _ _⟩

theorem joinContent_some (db : DB) (e : ScheduleEntry) (c : Content)
    (hc : db.content.find? (fun x => x.id == e.content_id) = some c) :
    joinContent db e =
      some ⟨e.id, e.business_id, e.content_id, e.scheduled_datetime,
        c.caption, c.image_url⟩ := by
  unfold joinContent
  rw [hc]

theorem joinContentBusiness_some (db : DB) (e : ScheduleEntry) (c : Content)
    (b : Business)
    (hc : db.content.find? (fun x => x.id == e.content_id) = some c)
    (hb : db.businesses.find? (fun x => x.id == e.business_id) = some b) :
    joinContentBusiness db e =
      some ⟨e.id, e.business_id, e.content_id, e.scheduled_datetime,
        c.caption, c.image_url⟩ := by
  unfold joinContentBusiness
  rw [hb, joinContent_some db e c hc]

/-! ### Claim C7 -/

/-- C7 (confirmed): both executors touch only schedule entries that are
pending and already due; any entry with a non-pending status or a future
target timestamp survives a sweep verbatim, so re-running a sweep cannot
re-process completed or failed entries. -/
theorem C7_thm (cfg : PosterConfig) (now : Nat) (db : DB)
    (hnd : (db.schedule.map (fun e => e.id)).Nodup)
    (s : ScheduleEntry) (hs : s ∈ db.schedule)
    (h : ¬(s.status = "pending" ∧ s.scheduled_datetime ≤ now)) :
    s ∈ (execute_scheduled_posts cfg now db).schedule ∧
    s ∈ (process_scheduled_posts cfg now db).schedule := by
  have hnotdue : isDuePending now s = false := by
    cases hd : isDuePending now s
    · rfl
    · exact absurd ((isDuePending_iff now s).mp hd) (fun hx => h ⟨hx.2, hx.1⟩)
  have hkey : ∀ (e : ScheduleEntry), e ∈ db.schedule →
      isDuePending now e = true → s.id ≠ e.id := by
    intro e he hdue heq
    have hse : s = e := List.inj_on_of_nodup_map hnd hs he heq
    rw [hse, hdue] at hnotdue
    cases hnotdue
  constructor
  · refine execFold_frame_schedule cfg now (dueRows db now) db s hs ?_
    intro r hr heq
    obtain ⟨e, he, hdue, hj⟩ := dueRows_source db now r hr
    have hid := (joinContent_eq db e r (joinContentBusiness_eq db e r hj).1).1
    exact hkey e he hdue (heq.trans hid)
  · refine schedFold_frame_schedule cfg now (dueRowsNoOrder db now) db s hs ?_
    intro r hr heq
    obtain ⟨e, he, hdue, hj⟩ := dueRowsNoOrder_source db now r hr
    have hid := (joinContent_eq db e r hj).1
    exact hkey e he hdue (heq.trans hid)

/-- C7, witness: a future pending entry survives both sweeps of a concrete
database. -/
theorem C7_witness :
    entFuture ∈ (execute_scheduled_posts cfgNone 10 dbC7).schedule ∧
    entFuture ∈ (process_scheduled_posts cfgNone 10 dbC7).schedule :=
  C7_thm cfgNone 10 dbC7 (by decide) entFuture (by decide) (by decide)

/-! ### Claim C1 -/

/-- C1, counterexample: with unconfigured credentials the publish attempt of
the single due entry succeeds, and the scheduler's executor marks the entry
completed — yet the performance table stays empty: only a proper subset of
the claimed three writes is performed by `process_scheduled_posts`. -/
theorem C1_counterexample :
    { entA with status := "completed", post_id := some "test_post_7",
                completed_at := some (10 : Nat) } ∈
      (process_scheduled_posts cfgNone 10 dbA).schedule ∧
    (process_scheduled_posts cfgNone 10 dbA).performance = [] := by
  constructor <;> decide

/-- C1 (corrected): on a successful publish, `execute_scheduled_posts`
performs the three writes together within its single transaction — the
entry becomes `completed` with the platform post id and a completion
timestamp, the linked content item becomes `published` with a publish
timestamp, and exactly one zero-metric performance record per successful
row is appended; `process_scheduled_posts` in scheduler.py performs only
the first two writes and never creates a performance record. -/
theorem C1_amended_thm :
    (∀ (cfg : PosterConfig) (now : Nat) (db : DB),
      (db.schedule.map (fun e => e.id)).Nodup →
      ∀ (e : ScheduleEntry) (c : Content) (b : Business) (pid : String),
        e ∈ db.schedule → isDuePending now e = true →
        db.content.find? (fun x => x.id == e.content_id) = some c →
        db.businesses.find? (fun x => x.id == e.business_id) = some b →
        post_to_instagram cfg c.caption c.image_url = some pid →
        ({ e with status := "completed", post_id := some pid,
                  completed_at := some now } ∈
          (execute_scheduled_posts cfg now db).schedule ∧
        (∃ c' ∈ (execute_scheduled_posts cfg now db).content,
          c'.id = e.content_id ∧ c'.status = "published" ∧
          c'.published_at = some now) ∧
        (execute_scheduled_posts cfg now db).performance =
          db.performance ++
            (dueRows db now).filterMap
              (fun r => (publishOutcome cfg r).map
                (fun p => mkPerf now r.business_id p)) ∧
        mkPerf now e.business_id pid ∈
          (execute_scheduled_posts cfg now db).performance ∧
        (∀ p ∈ (dueRows db now).filterMap
            (fun r => (publishOutcome cfg r).map
              (fun q => mkPerf now r.business_id q)),
          p.likes_count = 0 ∧ p.comments_count = 0 ∧ p.reach = 0 ∧
            p.impressions = 0 ∧ p.posted_at = now))) ∧
    (∀ (cfg : PosterConfig) (now : Nat) (db : DB),
      (process_scheduled_posts cfg now db).performance = db.performance) := by
  constructor
  · intro cfg now db hnd e c b pid he hdue hfc hfb hpub
    have hj := joinContentBusiness_some db e c b hfc hfb
    have hrmem : (⟨e.id, e.business_id, e.content_id, e.scheduled_datetime,
        c.caption, c.image_url⟩ : DueRow) ∈ dueRows db now :=
      dueRows_mem db now e _ he hdue hj
    have hout : publishOutcome cfg
        (⟨e.id, e.business_id, e.content_id, e.scheduled_datetime,
          c.caption, c.image_url⟩ : DueRow) = some pid := hpub
    have hperf := execFold_performance cfg now (dueRows db now) db
    refine ⟨?_, ?_, hperf, ?_, ?_⟩
    · exact execFold_hit_success cfg now (dueRows db now) db _ e pid
        (dueRows_nodup_ids db now hnd) hrmem hout he rfl
    · refine execFold_publishes cfg now (dueRows db now) db _ pid hrmem
        hout ?_
      exact ⟨c, List.mem_of_find?_eq_some hfc,
        by simpa using List.find?_some hfc⟩
    · have hmem2 : mkPerf now e.business_id pid ∈
          (dueRows db now).filterMap
            (fun r => (publishOutcome cfg r).map
              (fun p => mkPerf now r.business_id p)) := by
        refine List.mem_filterMap.mpr ⟨_, hrmem, ?_⟩
        rw [hout]
        rfl
      show mkPerf now e.business_id pid ∈
        (execute_scheduled_posts cfg now db).performance
      rw [show (execute_scheduled_posts cfg now db).performance =
        db.performance ++ (dueRows db now).filterMap
          (fun r => (publishOutcome cfg r).map
            (fun p => mkPerf now r.business_id p)) from hperf]
      exact List.mem_append_right _ hmem2
    · intro p hp
      obtain ⟨r', hr', hpr⟩ := List.mem_filterMap.mp hp
      cases hpo : publishOutcome cfg r' with
      | none => rw [hpo] at hpr; cases hpr
      | some q =>
          rw [hpo] at hpr
          have hpq := Option.some.inj hpr
          rw [← hpq]
          exact ⟨rfl, rfl, rfl, rfl, rfl⟩
  · intro cfg now db
    exact schedFold_performance cfg now (dueRowsNoOrder db now) db

/-- C1, witness: the successful test-mode publish of a concrete due entry
leaves the completed row in the schedule table. -/
theorem C1_witness :
    { entA with status := "completed", post_id := some "test_post_7",
                completed_at := some (10 : Nat) } ∈
      (execute_scheduled_posts cfgNone 10 dbA).schedule :=
  (C1_amended_thm.1 cfgNone 10 dbA (by decide) entA contA bizA "test_post_7"
    (by decide) (by decide) (by decide) (by decide) (by decide)).1

/-! ### Claim C6 -/

/-- C6 (confirmed): when the publish attempt of a due pending entry fails
(at the stage or at the commit step), both executors set that entry to
`failed` with its retry counter incremented by exactly 1 and an error
message recorded, the linked content row is left completely unchanged (in
particular not `published`), and any other due entry whose publish attempt
succeeds is still driven to `completed` in the same sweep. -/
theorem C6_thm (cfg : PosterConfig) (now : Nat) (db : DB)
    (hnd : (db.schedule.map (fun x => x.id)).Nodup)
    (e : ScheduleEntry) (c : Content) (b : Business)
    (he : e ∈ db.schedule) (hdue : isDuePending now e = true)
    (hfc : db.content.find? (fun x => x.id == e.content_id) = some c)
    (hfb : db.businesses.find? (fun x => x.id == e.business_id) = some b)
    (hpub : post_to_instagram cfg c.caption c.image_url = none)
    (honly : ∀ e2 ∈ db.schedule, e2.content_id = e.content_id →
      isDuePending now e2 = true → e2 = e) :
    ({ e with status := "failed", retry_count := e.retry_count + 1,
              error_message := some "Instagram posting failed" } ∈
      (execute_scheduled_posts cfg now db).schedule) ∧
    c ∈ (execute_scheduled_posts cfg now db).content ∧
    ({ e with status := "failed", retry_count := e.retry_count + 1,
              error_message := some "Instagram posting failed" } ∈
      (process_scheduled_posts cfg now db).schedule) ∧
    c ∈ (process_scheduled_posts cfg now db).content ∧
    (∀ (e2 : ScheduleEntry) (c2 : Content) (b2 : Business) (pid2 : String),
      e2 ∈ db.schedule → isDuePending now e2 = true →
      db.content.find? (fun x => x.id == e2.content_id) = some c2 →
      db.businesses.find? (fun x => x.id == e2.business_id) = some b2 →
      post_to_instagram cfg c2.caption c2.image_url = some pid2 →
      { e2 with status := "completed", post_id := some pid2,
                completed_at := some now } ∈
        (execute_scheduled_posts cfg now db).schedule) := by
  have hjc := joinContent_some db e c hfc
  have hj := joinContentBusiness_some db e c b hfc hfb
  have hout : publishOutcome cfg
      (⟨e.id, e.business_id, e.content_id, e.scheduled_datetime,
        c.caption, c.image_url⟩ : DueRow) = none := hpub
  have hcideq : c.id = e.content_id := by simpa using List.find?_some hfc
  have hcore : ∀ (e2 : ScheduleEntry) (r' : DueRow), e2 ∈ db.schedule →
      isDuePending now e2 = true → joinContent db e2 = some r' →
      r'.content_id = c.id → publishOutcome cfg r' = none := by
    intro e2 r' he2 hdue2 hjc2 hrc
    obtain ⟨_, _, hcid2, _, c2, hfc2, hcap2, himg2⟩ :=
      joinContent_eq db e2 r' hjc2
    have hee : e2 = e := honly e2 he2 (by rw [← hcid2, hrc, hcideq]) hdue2
    subst hee
    rw [hfc] at hfc2
    have hc2c : c = c2 := Option.some.inj hfc2
    unfold publishOutcome
    rw [hcap2, himg2, ← hc2c]
    exact hpub
  refine ⟨?_, ?_, ?_, ?_, ?_⟩
  · exact execFold_hit_failure cfg now (dueRows db now) db _ e
      (dueRows_nodup_ids db now hnd) (dueRows_mem db now e _ he hdue hj)
      hout he rfl
  · refine execFold_frame_content cfg now (dueRows db now) db c
      (List.mem_of_find?_eq_some hfc) ?_
    intro r' hr' hrc
    obtain ⟨e2, he2, hdue2, hj2⟩ := dueRows_source db now r' hr'
    exact hcore e2 r' he2 hdue2 (joinContentBusiness_eq db e2 r' hj2).1 hrc
  · exact schedFold_hit_failure cfg now (dueRowsNoOrder db now) db _ e b
      (dueRowsNoOrder_nodup_ids db now hnd)
      (dueRowsNoOrder_mem db now e _ he hdue hjc) hout hfb he rfl
  · refine schedFold_frame_content cfg now (dueRowsNoOrder db now) db c
      (List.mem_of_find?_eq_some hfc) ?_
    intro r' hr' hrc
    obtain ⟨e2, he2, hdue2, hj2⟩ := dueRowsNoOrder_source db now r' hr'
    exact hcore e2 r' he2 hdue2 hj2 hrc
  · intro e2 c2 b2 pid2 he2 hdue2 hfc2 hfb2 hpub2
    have hj2 := joinContentBusiness_some db e2 c2 b2 hfc2 hfb2
    have hout2 : publishOutcome cfg
        (⟨e2.id, e2.business_id, e2.content_id, e2.scheduled_datetime,
          c2.caption, c2.image_url⟩ : DueRow) = some pid2 := hpub2
    exact execFold_hit_success cfg now (dueRows db now) db _ e2 pid2
      (dueRows_nodup_ids db now hnd) (dueRows_mem db now e2 _ he2 hdue2 hj2)
      hout2 he2 rfl

/-- C6, witness: the concrete due entry fails to publish under a configured
poster whose stage call errors; the failed row with retry count 1 is in the
final schedule table. -/
theorem C6_witness :
    { entA with status := "failed", retry_count := entA.retry_count + 1,
                error_message := some "Instagram posting failed" } ∈
      (execute_scheduled_posts cfgFail 10 dbA).schedule :=
  (C6_thm cfgFail 10 dbA (by decide) entA contA bizA (by decide) (by decide)
    (by decide) (by decide) (by decide) (by decide)).1

/-! ### Claim C10 -/

/-- C10 (confirmed): with either credential unset, `create_media_container`
returns the synthetic `test_container_…` handle and the two-phase publish
returns the synthetic `test_post_…` id instead of failing; consequently
`execute_scheduled_posts` drives any due pending entry to `completed` with
that synthetic post id and marks its content `published`, although no
external post occurred. -/
theorem C10_thm (cfg : PosterConfig)
    (h : cfg.access_token = none ∨ cfg.business_account_id = none) :
    (∀ caption image_url : String,
      create_media_container cfg image_url caption =
        some ("test_container_" ++ toString cfg.epoch) ∧
      post_to_instagram cfg caption image_url =
        some ("test_post_" ++ toString cfg.epoch)) ∧
    (∀ (now : Nat) (db : DB), (db.schedule.map (fun x => x.id)).Nodup →
      ∀ (e : ScheduleEntry) (c : Content) (b : Business),
        e ∈ db.schedule → isDuePending now e = true →
        db.content.find? (fun x => x.id == e.content_id) = some c →
        db.businesses.find? (fun x => x.id == e.business_id) = some b →
        ({ e with status := "completed",
                  post_id := some ("test_post_" ++ toString cfg.epoch),
                  completed_at := some now } ∈
          (execute_scheduled_posts cfg now db).schedule ∧
        ∃ c' ∈ (execute_scheduled_posts cfg now db).content,
          c'.id = e.content_id ∧ c'.status = "published" ∧
          c'.published_at = some now)) := by
  have htm : testMode cfg = true := by
    unfold testMode
    rcases h with h | h <;> simp [h]
  have hcont : ∀ image_url caption : String,
      create_media_container cfg image_url caption =
        some ("test_container_" ++ toString cfg.epoch) := by
    intro iu ca
    simp [create_media_container, htm, createTestPost]
  have hpost : ∀ caption image_url : String,
      post_to_instagram cfg caption image_url =
        some ("test_post_" ++ toString cfg.epoch) := by
    intro ca iu
    unfold post_to_instagram
    rw [hcont iu ca]
    simp [publish_media, htm]
  refine ⟨fun ca iu => ⟨hcont iu ca, hpost ca iu⟩, ?_⟩
  intro now db hnd e c b he hdue hfc hfb
  have hj := joinContentBusiness_some db e c b hfc hfb
  have hrmem := dueRows_mem db now e _ he hdue hj
  have hout : publishOutcome cfg
      (⟨e.id, e.business_id, e.content_id, e.scheduled_datetime,
        c.caption, c.image_url⟩ : DueRow) =
      some ("test_post_" ++ toString cfg.epoch) :=
    hpost c.caption c.image_url
  constructor
  · exact execFold_hit_success cfg now (dueRows db now) db _ e _
      (dueRows_nodup_ids db now hnd) hrmem hout he rfl
  · refine execFold_publishes cfg now (dueRows db now) db _ _ hrmem hout ?_
    exact ⟨c, List.mem_of_find?_eq_some hfc,
      by simpa using List.find?_some hfc⟩

/-- C10, witness: the credential-free poster yields the synthetic post id
and completes the concrete due entry. -/
theorem C10_witness :
    post_to_instagram cfgNone "caption one" "img-1" = some "test_post_7" ∧
    { entA with status := "completed", post_id := some "test_post_7",
                completed_at := some (10 : Nat) } ∈
      (execute_scheduled_posts cfgNone 10 dbA).schedule :=
  ⟨((C10_thm cfgNone (Or.inl rfl)).1 "caption one" "img-1").2,
   ((C10_thm cfgNone (Or.inl rfl)).2 10 dbA (by decide) entA contA bizA
     (by decide) (by decide) (by decide) (by decide)).1⟩
